import Mathlib

/-!
Shallow embedding of the change-detection engine of `hourly_check.py`
(Incheon airport cargo-schedule hourly checker).

Python values occurring in flight-record fields are modelled by `Val`:
`Val.none` is Python `None` (or a missing key), `Val.str` a string,
`Val.nanFloat` a float NaN, and `Val.float` any other float, its payload
abstracted as an integer since no behaviour depends on float arithmetic,
only on NaN-ness and equality.  A record (Python dict) is an association
list from field names to values; a snapshot is a list of records.

Python set iteration order is implementation defined; the embedding fixes
first-insertion order for the `added` set, and every property proved below
is invariant under permutation of that segment.
-/

namespace ICN

/-- A Python value as it occurs in a flight-record field. -/
inductive Val : Type where
  | none : Val
  | str : String → Val
  | nanFloat : Val
  | float : Int → Val
deriving DecidableEq

/-- Python truthiness of a `Val` (`None` and `0.0` and `""` are falsy; a
float NaN is truthy). -/
def truthy : Val → Bool
  | Val.none => false
  | Val.str s => decide (s ≠ "")
  | Val.nanFloat => true
  | Val.float n => decide (n ≠ 0)

/-- Python `a or b`: returns `a` when `a` is truthy, else `b`. -/
def pyOr (a b : Val) : Val := if truthy a then a else b

/-- Source function `normalize_value` (hourly_check.py lines 139-163): `None`, the empty
string, the literal string `"NaN"` and a float NaN all become `None`;
every other value is returned unchanged. -/
def normalize_value : Val → Val
  | Val.none => Val.none
  | Val.str s => if s = "" ∨ s = "NaN" then Val.none else Val.str s
  | Val.nanFloat => Val.none
  | Val.float n => Val.float n

/-- The four sentinel shapes that the spec's Value Normalizer collapses to
the canonical absent value. -/
def nanLike : Val → Bool
  | Val.none => true
  | Val.str s => decide (s = "" ∨ s = "NaN")
  | Val.nanFloat => true
  | Val.float _ => false

/-- The per-field conversion done by `save_current_data` (hourly_check.py
lines 111-128) and by the inline arrival-cache writes in `main`
(lines 483-498 and 516-532): only a float NaN is replaced by `None`. -/
def cleanValue : Val → Val
  | Val.nanFloat => Val.none
  | v => v

/-- First-match association lookup, the read side of a Python dict
(keys are unique in an actual dict, so first match is the match). -/
def aget? {κ α : Type} [DecidableEq κ] (d : List (κ × α)) (k : κ) : Option α :=
  (d.find? (fun e => decide (e.1 = k))).map (fun e => e.2)

/-- Python dict write `d[k] = v`: overwrite in place when the key is
present, append otherwise. -/
def aset {κ α : Type} [DecidableEq κ] (d : List (κ × α)) (k : κ) (v : α) : List (κ × α) :=
  if d.any (fun e => decide (e.1 = k)) then
    d.map (fun e => if e.1 = k then (k, v) else e)
  else d ++ [(k, v)]

/-- A flight record: a Python dict from field-name strings to values. -/
abbrev FlightRec : Type := List (String × Val)

/-- Python `item.get(k)`: the stored value, `None` when the key is absent. -/
def pyGet (r : FlightRec) (k : String) : Val := (aget? r k).getD Val.none

/-- Python `item[k] = v` on a record. -/
def setKey (r : FlightRec) (k : String) (v : Val) : FlightRec := aset r k v

/-- Normalized flight name, `normalize_value(item.get('便名'))`. -/
def nameOf (r : FlightRec) : Val := normalize_value (pyGet r "便名")

/-- Normalized retrieval date, `normalize_value(item.get('取得日'))`. -/
def dateOf (r : FlightRec) : Val := normalize_value (pyGet r "取得日")

/-- Normalized scheduled time: departure column `or` arrival column, as in
hourly_check.py lines 206/220/285-286. -/
def schedOf (r : FlightRec) : Val :=
  pyOr (normalize_value (pyGet r "出発時間（予定）")) (normalize_value (pyGet r "到着時間（予定）"))

/-- Normalized actual time: departure column `or` arrival column, as in
hourly_check.py lines 207/221/289-290. -/
def actualOf (r : FlightRec) : Val :=
  pyOr (normalize_value (pyGet r "出発時間（実際）")) (normalize_value (pyGet r "到着時間（実際）"))

/-- The 4-tuple inserted into `prev_flights` / `curr_flights`. -/
def flightTuple (r : FlightRec) : Val × Val × Val × Val :=
  (nameOf r, dateOf r, schedOf r, actualOf r)

/-- The `(便名, 取得日)` comparison key used for the lookup dicts. -/
def flightKey (r : FlightRec) : Val × Val := (nameOf r, dateOf r)

/-- Python `set.add`: append unless already present. -/
def setAdd {α : Type} [DecidableEq α] (s : List α) (a : α) : List α :=
  if a ∈ s then s else s ++ [a]

/-- A Python set built by inserting the elements of a list in order
(first occurrence kept; see the header note on set iteration order). -/
def pySet {α : Type} [DecidableEq α] (l : List α) : List α := l.foldl setAdd []

/-- One step of building `curr_dict`: `curr_dict[flight_key] = item`. -/
def dictUpd (d : List ((Val × Val) × FlightRec)) (r : FlightRec) : List ((Val × Val) × FlightRec) :=
  aset d (flightKey r) r

/-- The lookup map `curr_dict` as built by the loop over the snapshot
(hourly_check.py lines 216-225): later records overwrite earlier ones. -/
def buildDict (l : List FlightRec) : List ((Val × Val) × FlightRec) := l.foldl dictUpd []

/-- The last record in `l` whose comparison key is `k`. -/
def lastMatch (l : List FlightRec) (k : Val × Val) : Option FlightRec :=
  l.reverse.find? (fun r => decide (flightKey r = k))

/-- The set `added = curr_flights - prev_flights` (line 228), as a list of the
distinct current 4-tuples absent from the previous tuple set. -/
def addedTuples (previous current : List FlightRec) : List (Val × Val × Val × Val) :=
  pySet ((current.map flightTuple).filter
    (fun t => decide (¬ t ∈ previous.map flightTuple)))

/-- The `is_completely_new` scan (lines 238-243): the flight name occurs
nowhere in the previous snapshot. -/
def is_completely_new (previous : List FlightRec) (fname : Val) : Bool :=
  previous.all (fun p => decide (nameOf p ≠ fname))

/-- The records appended with tag `新規` by the added-flight loop
(lines 231-253): for each added tuple whose name is completely new, the
`curr_dict` entry for its `(name, date)` key, tagged. -/
def newItems (previous current : List FlightRec) : List FlightRec :=
  (addedTuples previous current).filterMap (fun t =>
    if is_completely_new previous t.1 then
      match aget? (buildDict current) (t.1, t.2.1) with
      | some item => some (setKey item "変更種別" (Val.str "新規"))
      | Option.none => Option.none
    else Option.none)

/-- The `new_flight_names` set (lines 229/248). -/
def newNames (previous current : List FlightRec) : List Val :=
  pySet ((addedTuples previous current).filterMap (fun t =>
    if is_completely_new previous t.1 then some t.1 else Option.none))

/-- The inner-loop match test of the time-change scan (line 283):
same normalized name and date. -/
def keyMatches (c p : FlightRec) : Bool :=
  decide (nameOf p = nameOf c) && decide (dateOf p = dateOf c)

/-- The previous record the time-change scan compares against: the FIRST
record of `previous` with the same `(name, date)` key (the inner loop
breaks on the first match, lines 278-318). -/
def firstPrevMatch (previous : List FlightRec) (c : FlightRec) : Option FlightRec :=
  previous.find? (keyMatches c)

/-- The change test of line 293. -/
def timeDiffers (p c : FlightRec) : Bool :=
  decide (schedOf p ≠ schedOf c) || decide (actualOf p ≠ actualOf c)

/-- Absent prior times are recorded as the string `未定` (lines 314-315). -/
def orUndef (v : Val) : Val := if v = Val.none then Val.str "未定" else v

/-- The annotated record built at lines 311-316: the current record with
tag `時間変更` and the prior scheduled/actual values attached. -/
def tcAnnotate (c p : FlightRec) : FlightRec :=
  setKey (setKey (setKey c "変更種別" (Val.str "時間変更"))
    "前回予定時間" (orUndef (schedOf p))) "前回実際時間" (orUndef (actualOf p))

/-- The records appended by the time-change scan (lines 274-318), one per
current record whose first previous key-match has a differing time. -/
def timeChangedItems (previous current : List FlightRec) : List FlightRec :=
  current.filterMap (fun c =>
    match firstPrevMatch previous c with
    | some p => if timeDiffers p c then some (tcAnnotate c p) else Option.none
    | Option.none => Option.none)

/-- The `time_changes` name set (lines 272/317). -/
def timeChangedNames (previous current : List FlightRec) : List Val :=
  pySet (current.filterMap (fun c =>
    match firstPrevMatch previous c with
    | some p => if timeDiffers p c then some (nameOf c) else Option.none
    | Option.none => Option.none))

/-- The classifier's result triple. -/
structure Report where
  has_changes : Bool
  summary : String
  changed : List FlightRec
deriving DecidableEq

/-- Source function `compare_data` (hourly_check.py lines 171-327). -/
def compare_data (previous : Option (List FlightRec)) (current : List FlightRec) : Report :=
  match previous with
  | Option.none => ⟨true, "初回実行のため全データを通知", current⟩
  | some prev =>
    let nNames := newNames prev current
    let tNames := timeChangedNames prev current
    let changes :=
      (if nNames.isEmpty then [] else ["新規: " ++ toString nNames.length ++ "件"])
      ++ (if tNames.isEmpty then [] else ["時間変更: " ++ toString tNames.length ++ "件"])
    if changes.isEmpty then ⟨false, "変更なし", []⟩
    else ⟨true, String.intercalate ", " changes,
      newItems prev current ++ timeChangedItems prev current⟩

/-- Content written by `save_current_data` (lines 111-128) and by the two
inline arrival-cache writers in `main`: per-field `cleanValue`, i.e. only
float NaN is replaced by null. -/
def save_current_data (data : List FlightRec) : List FlightRec :=
  data.map (fun item => item.map (fun p => (p.1, cleanValue p.2)))

/-- Follows the spec's words for `save` (spec 4.2: "normalizes every field
via the Value Normalizer, serializes, and overwrites the direction's cache
file"); to be compared with `save_current_data`. -/
def specSaveNormalized (data : List FlightRec) : List FlightRec :=
  data.map (fun item => item.map (fun p => (p.1, normalize_value p.2)))

/-- One run's external inputs: webhook configured?, acquisition results
(`none` = scraper returned `None`), cache-load results (`none` = missing
or unreadable cache), and the outcome each notification call would have. -/
structure Env where
  webhook : Bool
  df_departure : Option (List FlightRec)
  df_arrival : Option (List FlightRec)
  prevDep : Option (List FlightRec)
  prevArr : Option (List FlightRec)
  notifyDep : Bool
  notifyArr : Bool
deriving DecidableEq

/-- One run's observable outcome: exit code, cache-file writes (`none` =
file not rewritten), whether each notification was attempted, the
per-direction success flags, and the `has_changes_overall` / `success`
locals of `main`. -/
structure RunResult where
  exitCode : Nat
  depCacheWrite : Option (List FlightRec)
  arrCacheWrite : Option (List FlightRec)
  depAttempt : Bool
  arrAttempt : Bool
  depSuccess : Bool
  arrSuccess : Bool
  overall : Bool
  success : Bool
deriving DecidableEq

/-- Acquisition check `df is not None and len(df) > 0` (lines 406-407). -/
def hasData : Option (List FlightRec) → Bool
  | Option.none => false
  | some l => decide (0 < l.length)

def hasDep (e : Env) : Bool := hasData e.df_departure

def hasArr (e : Env) : Bool := hasData e.df_arrival

/-- The departure comparison result (lines 417-425); when the direction
has no data, `has_changes_dep = False` and `changed_data_departure = []`. -/
def depReport (e : Env) : Report :=
  if hasDep e then compare_data e.prevDep (e.df_departure.getD []) else ⟨false, "", []⟩

/-- The arrival comparison result (lines 428-446). -/
def arrReport (e : Env) : Report :=
  if hasArr e then compare_data e.prevArr (e.df_arrival.getD []) else ⟨false, "", []⟩

/-- Flag `has_changes_overall` (lines 414/425/446). -/
def overallChanges (e : Env) : Bool :=
  (depReport e).has_changes || (arrReport e).has_changes

/-- The guard of the departure notification call (line 455). -/
def depTried (e : Env) : Bool :=
  hasDep e && (depReport e).has_changes && !(depReport e).changed.isEmpty

/-- The guard of the arrival notification call (line 465). -/
def arrTried (e : Env) : Bool :=
  hasArr e && (arrReport e).has_changes && !(arrReport e).changed.isEmpty

/-- Flag `success_departure` after the conditional call (lines 451-462). -/
def depOk (e : Env) : Bool := depTried e && e.notifyDep

/-- Flag `success_arrival` after the conditional call (lines 452-472). -/
def arrOk (e : Env) : Bool := arrTried e && e.notifyArr

/-- Flag `success = success_departure or success_arrival` (line 474). -/
def anySuccess (e : Env) : Bool := depOk e || arrOk e

/-- Source function `main` (hourly_check.py lines 338-539) as a function from the run's
external inputs to its observable outcome. -/
def main (e : Env) : RunResult :=
  if e.webhook = false then
    ⟨1, Option.none, Option.none, false, false, false, false, false, false⟩
  else if hasDep e = false ∧ hasArr e = false then
    ⟨1, Option.none, Option.none, false, false, false, false, false, false⟩
  else if overallChanges e then
    if anySuccess e then
      ⟨0,
       if hasDep e then some (save_current_data (e.df_departure.getD [])) else Option.none,
       if hasArr e then some (save_current_data (e.df_arrival.getD [])) else Option.none,
       depTried e, arrTried e, depOk e, arrOk e, true, true⟩
    else
      ⟨1, Option.none, Option.none, depTried e, arrTried e, depOk e, arrOk e, true, false⟩
  else
    ⟨0,
     if hasDep e then some (save_current_data (e.df_departure.getD [])) else Option.none,
     if hasArr e then some (save_current_data (e.df_arrival.getD [])) else Option.none,
     false, false, false, false, false, false⟩

/-- A concrete sample record with the four comparison-relevant fields. -/
def sample (n d : String) (sch act : Val) : FlightRec :=
  [("便名", Val.str n), ("取得日", Val.str d),
   ("出発時間（予定）", sch), ("出発時間（実際）", act)]

end ICN


namespace ICN

theorem find_append {α : Type} (p : α → Bool) (l₁ l₂ : List α) :
    (l₁ ++ l₂).find? p
      = match l₁.find? p with
        | some a => some a
        | Option.none => l₂.find? p := by
  induction l₁ with
  | nil => simp
  | cons a t ih =>
    by_cases h : p a = true
    · simp [List.find?_cons, h]
    · simp only [List.cons_append, List.find?_cons, h]
      simp only [Bool.false_eq_true, if_false] at *
      exact ih

theorem find?_eq_some_unique {α : Type} (p : α → Bool) (l : List α) (a : α)
    (ha : a ∈ l) (hpa : p a = true) (hu : ∀ b ∈ l, p b = true → b = a) :
    l.find? p = some a := by
  induction l with
  | nil => cases ha
  | cons b t ih =>
    by_cases hb : p b = true
    · have hba : b = a := hu b (List.mem_cons_self b t) hb
      simp [List.find?_cons, hb, hba, hpa]
    · have ha' : a ∈ t := by
        rcases List.mem_cons.mp ha with h | h
        · exact absurd (h ▸ hpa) hb
        · exact h
      simp only [List.find?_cons, hb, Bool.false_eq_true, if_false]
      exact ih ha' (fun b' hb' hpb => hu b' (List.mem_cons_of_mem _ hb') hpb)

theorem mem_foldl_setAdd {α : Type} [DecidableEq α] (x : α) (l : List α) :
    ∀ acc : List α, (x ∈ l.foldl setAdd acc) ↔ x ∈ acc ∨ x ∈ l := by
  induction l with
  | nil => intro acc; simp
  | cons a t ih =>
    intro acc
    rw [List.foldl_cons, ih]
    have hstep : x ∈ setAdd acc a ↔ x ∈ acc ∨ x = a := by
      unfold setAdd
      by_cases h : a ∈ acc
      · simp only [h, if_true]
        constructor
        · exact Or.inl
        · rintro (hx | hx)
          · exact hx
          · exact hx ▸ h
      · simp [h]
    rw [hstep]
    simp [List.mem_cons]
    tauto

theorem mem_pySet {α : Type} [DecidableEq α] (x : α) (l : List α) :
    x ∈ pySet l ↔ x ∈ l := by
  unfold pySet
  rw [mem_foldl_setAdd]
  simp

theorem find_replace {κ α : Type} [DecidableEq κ] (d : List (κ × α)) (k : κ) (v : α) :
    (d.map (fun e => if e.1 = k then (k, v) else e)).find? (fun e => decide (e.1 = k))
      = if d.any (fun e => decide (e.1 = k)) then some (k, v) else Option.none := by
  induction d with
  | nil => simp
  | cons a t ih =>
    by_cases h : a.1 = k
    · simp [List.find?_cons, h]
    · have hd : decide (a.1 = k) = false := decide_eq_false h
      simp only [List.map_cons, if_neg h, List.find?_cons, hd, List.any_cons,
        Bool.false_or, ih]

theorem find_replace_ne {κ α : Type} [DecidableEq κ] (d : List (κ × α)) (k k' : κ) (v : α)
    (hne : k' ≠ k) :
    (d.map (fun e => if e.1 = k then (k, v) else e)).find? (fun e => decide (e.1 = k'))
      = d.find? (fun e => decide (e.1 = k')) := by
  induction d with
  | nil => simp
  | cons a t ih =>
    by_cases h : a.1 = k
    · have h1 : ¬ (k = k') := fun hk => hne hk.symm
      have h2 : ¬ (a.1 = k') := by rw [h]; exact h1
      simp [List.find?_cons, h, h1, h2, ih]
    · have hcond : (if a.1 = k then (k, v) else a) = a := if_neg h
      by_cases h' : a.1 = k'
      · have hd' : decide (a.1 = k') = true := decide_eq_true h'
        simp only [List.map_cons, hcond, List.find?_cons, hd']
      · have hd : decide (a.1 = k') = false := decide_eq_false h'
        simp only [List.map_cons, hcond, List.find?_cons, hd, ih]

theorem aget?_aset_same {κ α : Type} [DecidableEq κ] (d : List (κ × α)) (k : κ) (v : α) :
    aget? (aset d k v) k = some v := by
  unfold aset
  by_cases h : d.any (fun e => decide (e.1 = k)) = true
  · rw [if_pos h]
    unfold aget?
    rw [find_replace, if_pos h]
    rfl
  · simp only [h]
    have hnone : d.find? (fun e => decide (e.1 = k)) = Option.none := by
      rw [List.find?_eq_none]
      intro x hx
      have := List.any_eq_false.mp (Bool.eq_false_iff.mpr h) x hx
      simpa using this
    simp [aget?, find_append, hnone]

theorem aget?_aset_ne {κ α : Type} [DecidableEq κ] (d : List (κ × α)) (k k' : κ) (v : α)
    (hne : k' ≠ k) :
    aget? (aset d k v) k' = aget? d k' := by
  unfold aset
  by_cases h : d.any (fun e => decide (e.1 = k)) = true
  · simp [aget?, h, find_replace_ne d k k' v hne]
  · simp only [h, if_false, Bool.false_eq_true, aget?, find_append]
    have h2 : ¬ (k = k') := fun hk => hne hk.symm
    cases hd : d.find? (fun e => decide (e.1 = k')) <;> simp [hd, h2]

theorem pyGet_setKey_same (r : FlightRec) (k : String) (v : Val) :
    pyGet (setKey r k v) k = v := by
  simp [pyGet, setKey, aget?_aset_same]

theorem pyGet_setKey_ne (r : FlightRec) (k k' : String) (v : Val) (hne : k' ≠ k) :
    pyGet (setKey r k v) k' = pyGet r k' := by
  simp [pyGet, setKey, aget?_aset_ne r k k' v hne]

end ICN

namespace ICN

theorem foldl_dictUpd_get (l : List FlightRec) :
    ∀ (d : List ((Val × Val) × FlightRec)) (k : Val × Val),
      aget? (l.foldl dictUpd d) k
        = match lastMatch l k with
          | some r => some r
          | Option.none => aget? d k := by
  induction l with
  | nil => intro d k; simp [lastMatch]
  | cons r t ih =>
    intro d k
    rw [List.foldl_cons, ih]
    have hup : aget? (dictUpd d r) k
        = if k = flightKey r then some r else aget? d k := by
      unfold dictUpd
      by_cases hk : k = flightKey r
      · rw [if_pos hk, hk, aget?_aset_same]
      · rw [if_neg hk, aget?_aset_ne d (flightKey r) k r hk]
    have hlm : lastMatch (r :: t) k
        = match lastMatch t k with
          | some x => some x
          | Option.none => if flightKey r = k then some r else Option.none := by
      unfold lastMatch
      rw [List.reverse_cons, find_append]
      cases ht : t.reverse.find? (fun r' => decide (flightKey r' = k))
      · by_cases hr : flightKey r = k <;> simp [hr]
      · simp
    rw [hlm]
    cases ht : lastMatch t k
    · rw [hup]
      by_cases hr : flightKey r = k
      · rw [if_pos hr, if_pos hr.symm]
      · rw [if_neg hr, if_neg (fun h => hr h.symm)]
    · rfl

theorem buildDict_eq_lastMatch (l : List FlightRec) (k : Val × Val) :
    aget? (buildDict l) k = lastMatch l k := by
  unfold buildDict
  rw [foldl_dictUpd_get]
  cases h : lastMatch l k
  · simp [aget?]
  · rfl

theorem lastMatch_mem (l : List FlightRec) (k : Val × Val) (r : FlightRec)
    (h : lastMatch l k = some r) : r ∈ l ∧ flightKey r = k := by
  unfold lastMatch at h
  refine ⟨List.mem_reverse.mp (List.mem_of_find?_eq_some h), ?_⟩
  have := List.find?_some h
  simpa using this

theorem lastMatch_self (l : List FlightRec) (c : FlightRec) (hc : c ∈ l)
    (huniq : ∀ c' ∈ l, flightKey c' = flightKey c → c' = c) :
    lastMatch l (flightKey c) = some c := by
  unfold lastMatch
  cases h : l.reverse.find? (fun r => decide (flightKey r = flightKey c)) with
  | none =>
    exfalso
    rw [List.find?_eq_none] at h
    exact (h c (List.mem_reverse.mpr hc)) (by simp)
  | some a =>
    have ha := List.find?_some h
    have hmem := List.mem_of_find?_eq_some h
    have hkey : flightKey a = flightKey c := by simpa using ha
    rw [huniq a (List.mem_reverse.mp hmem) hkey]

theorem pyGet_tcAnnotate_tag (c p : FlightRec) :
    pyGet (tcAnnotate c p) "変更種別" = Val.str "時間変更" := by
  unfold tcAnnotate
  rw [pyGet_setKey_ne _ _ _ _ (by decide), pyGet_setKey_ne _ _ _ _ (by decide),
    pyGet_setKey_same]

theorem nameOf_tcAnnotate (c p : FlightRec) :
    nameOf (tcAnnotate c p) = nameOf c := by
  unfold tcAnnotate nameOf
  rw [pyGet_setKey_ne _ _ _ _ (by decide), pyGet_setKey_ne _ _ _ _ (by decide),
    pyGet_setKey_ne _ _ _ _ (by decide)]

theorem pyGet_newTag (item : FlightRec) :
    pyGet (setKey item "変更種別" (Val.str "新規")) "変更種別" = Val.str "新規" :=
  pyGet_setKey_same item _ _

theorem nameOf_newTag (item : FlightRec) :
    nameOf (setKey item "変更種別" (Val.str "新規")) = nameOf item := by
  unfold nameOf
  rw [pyGet_setKey_ne _ _ _ _ (by decide)]

end ICN

namespace ICN

theorem isEmpty_iff_nil {α : Type} (l : List α) : l.isEmpty = true ↔ l = [] := by
  cases l <;> simp

theorem compare_changed_of_ne (prev current : List FlightRec)
    (h : newNames prev current ≠ [] ∨ timeChangedNames prev current ≠ []) :
    (compare_data (some prev) current).has_changes = true ∧
    (compare_data (some prev) current).changed
      = newItems prev current ++ timeChangedItems prev current := by
  rcases h with h | h
  · have hA : (newNames prev current).isEmpty = false :=
      Bool.eq_false_iff.mpr (fun hh => h ((isEmpty_iff_nil _).mp hh))
    constructor <;> simp [compare_data, hA]
  · have hB : (timeChangedNames prev current).isEmpty = false :=
      Bool.eq_false_iff.mpr (fun hh => h ((isEmpty_iff_nil _).mp hh))
    by_cases hA : (newNames prev current).isEmpty = true <;>
      constructor <;> simp [compare_data, hA, hB]

theorem compare_none_of_empty (prev current : List FlightRec)
    (h1 : newNames prev current = []) (h2 : timeChangedNames prev current = []) :
    compare_data (some prev) current = ⟨false, "変更なし", []⟩ := by
  simp [compare_data, h1, h2]

theorem changed_cases (prev current : List FlightRec) (r : FlightRec)
    (h : r ∈ (compare_data (some prev) current).changed) :
    r ∈ newItems prev current ∨ r ∈ timeChangedItems prev current := by
  by_cases h1 : newNames prev current = []
  · by_cases h2 : timeChangedNames prev current = []
    · rw [compare_none_of_empty prev current h1 h2] at h
      simp at h
    · obtain ⟨_, hch⟩ := compare_changed_of_ne prev current (Or.inr h2)
      rw [hch] at h
      exact List.mem_append.mp h
  · obtain ⟨_, hch⟩ := compare_changed_of_ne prev current (Or.inl h1)
    rw [hch] at h
    exact List.mem_append.mp h

theorem newItems_elim (prev current : List FlightRec) (r : FlightRec)
    (h : r ∈ newItems prev current) :
    ∃ item, item ∈ current ∧ is_completely_new prev (nameOf item) = true ∧
      r = setKey item "変更種別" (Val.str "新規") := by
  unfold newItems at h
  obtain ⟨t, ht, hf⟩ := List.mem_filterMap.mp h
  by_cases hn : is_completely_new prev t.1 = true
  · rw [if_pos hn] at hf
    cases hlook : aget? (buildDict current) (t.1, t.2.1) with
    | none => rw [hlook] at hf; cases hf
    | some item =>
      rw [hlook] at hf
      have hr := (Option.some.inj hf).symm
      rw [buildDict_eq_lastMatch] at hlook
      obtain ⟨hmem, hkey⟩ := lastMatch_mem current _ item hlook
      have hname : nameOf item = t.1 := congrArg Prod.fst hkey
      refine ⟨item, hmem, ?_, hr⟩
      rw [hname]
      exact hn
  · rw [if_neg hn] at hf; cases hf

theorem timeChangedItems_elim (prev current : List FlightRec) (r : FlightRec)
    (h : r ∈ timeChangedItems prev current) :
    ∃ c p, c ∈ current ∧ firstPrevMatch prev c = some p ∧ timeDiffers p c = true ∧
      r = tcAnnotate c p := by
  unfold timeChangedItems at h
  obtain ⟨c, hc, hf⟩ := List.mem_filterMap.mp h
  cases hm : firstPrevMatch prev c with
  | none => rw [hm] at hf; cases hf
  | some p =>
    rw [hm] at hf
    dsimp only at hf
    by_cases hd : timeDiffers p c = true
    · rw [if_pos hd] at hf
      exact ⟨c, p, hc, hm, hd, (Option.some.inj hf).symm⟩
    · rw [if_neg hd] at hf; cases hf

theorem mem_timeChangedItems (prev current : List FlightRec) (c p : FlightRec)
    (hc : c ∈ current) (hm : firstPrevMatch prev c = some p)
    (hd : timeDiffers p c = true) :
    tcAnnotate c p ∈ timeChangedItems prev current := by
  unfold timeChangedItems
  exact List.mem_filterMap.mpr ⟨c, hc, by rw [hm]; dsimp only; rw [if_pos hd]⟩

theorem timeChangedNames_ne (prev current : List FlightRec) (c p : FlightRec)
    (hc : c ∈ current) (hm : firstPrevMatch prev c = some p)
    (hd : timeDiffers p c = true) :
    timeChangedNames prev current ≠ [] := by
  have hmem : nameOf c ∈ timeChangedNames prev current := by
    unfold timeChangedNames
    rw [mem_pySet]
    exact List.mem_filterMap.mpr ⟨c, hc, by rw [hm]; dsimp only; rw [if_pos hd]⟩
  intro hnil
  rw [hnil] at hmem
  cases hmem

theorem tc_mem_changed (prev current : List FlightRec) (c p : FlightRec)
    (hc : c ∈ current) (hm : firstPrevMatch prev c = some p)
    (hd : timeDiffers p c = true) :
    tcAnnotate c p ∈ (compare_data (some prev) current).changed := by
  obtain ⟨_, hch⟩ := compare_changed_of_ne prev current
    (Or.inr (timeChangedNames_ne prev current c p hc hm hd))
  rw [hch]
  exact List.mem_append_right _ (mem_timeChangedItems prev current c p hc hm hd)

theorem icn_of_names (prev : List FlightRec) (v : Val)
    (hnew : ∀ p ∈ prev, nameOf p ≠ v) : is_completely_new prev v = true := by
  unfold is_completely_new
  rw [List.all_eq_true]
  intro p hp
  exact decide_eq_true (hnew p hp)

theorem tuple_not_in_prev (prev : List FlightRec) (c : FlightRec)
    (hnew : ∀ p ∈ prev, nameOf p ≠ nameOf c) :
    ¬ flightTuple c ∈ prev.map flightTuple := by
  intro hmem
  obtain ⟨q, hq, hqt⟩ := List.mem_map.mp hmem
  exact hnew q hq (congrArg Prod.fst hqt)

theorem mem_addedTuples (prev current : List FlightRec) (c : FlightRec)
    (hc : c ∈ current) (hnotin : ¬ flightTuple c ∈ prev.map flightTuple) :
    flightTuple c ∈ addedTuples prev current := by
  unfold addedTuples
  rw [mem_pySet, List.mem_filter]
  exact ⟨List.mem_map_of_mem _ hc, by simpa using hnotin⟩

theorem mem_newItems_intro (prev current : List FlightRec) (c : FlightRec)
    (hc : c ∈ current) (hnew : ∀ p ∈ prev, nameOf p ≠ nameOf c)
    (hlast : aget? (buildDict current) (flightKey c) = some c) :
    setKey c "変更種別" (Val.str "新規") ∈ newItems prev current := by
  have hicn := icn_of_names prev (nameOf c) hnew
  have ht := mem_addedTuples prev current c hc (tuple_not_in_prev prev c hnew)
  unfold newItems
  refine List.mem_filterMap.mpr ⟨flightTuple c, ht, ?_⟩
  unfold flightKey at hlast
  simp only [flightTuple]
  rw [if_pos hicn, hlast]

theorem newNames_ne_intro (prev current : List FlightRec) (c : FlightRec)
    (hc : c ∈ current) (hnew : ∀ p ∈ prev, nameOf p ≠ nameOf c) :
    newNames prev current ≠ [] := by
  have hicn := icn_of_names prev (nameOf c) hnew
  have ht := mem_addedTuples prev current c hc (tuple_not_in_prev prev c hnew)
  have hmem : nameOf c ∈ newNames prev current := by
    unfold newNames
    rw [mem_pySet]
    refine List.mem_filterMap.mpr ⟨flightTuple c, ht, ?_⟩
    simp only [flightTuple]
    rw [if_pos hicn]
  intro hnil
  rw [hnil] at hmem
  cases hmem

end ICN

namespace ICN

theorem map_congr_mem {α β : Type} (l : List α) (f g : α → β)
    (h : ∀ a ∈ l, f a = g a) : l.map f = l.map g := by
  induction l with
  | nil => rfl
  | cons a t ih =>
    simp only [List.map_cons, h a (List.mem_cons_self a t)]
    rw [ih (fun b hb => h b (List.mem_cons_of_mem _ hb))]

theorem addedTuples_nil (previous current : List FlightRec)
    (hsub : ∀ c ∈ current, flightTuple c ∈ previous.map flightTuple) :
    addedTuples previous current = [] := by
  unfold addedTuples
  have hf : (current.map flightTuple).filter
      (fun t => decide (¬ t ∈ previous.map flightTuple)) = [] := by
    rw [List.filter_eq_nil_iff]
    intro t ht
    obtain ⟨c, hc, hct⟩ := List.mem_map.mp ht
    simp [← hct, hsub c hc]
  rw [hf]
  rfl

theorem firstPrevMatch_self (current extra : List FlightRec) (c : FlightRec)
    (hc : c ∈ current)
    (hkeys : ∀ c1 ∈ current, ∀ c2 ∈ current, flightKey c1 = flightKey c2 → c1 = c2) :
    firstPrevMatch (current ++ extra) c = some c := by
  unfold firstPrevMatch
  rw [find_append]
  cases hfc : current.find? (keyMatches c) with
  | none =>
    exfalso
    rw [List.find?_eq_none] at hfc
    exact hfc c hc (by simp [keyMatches])
  | some c1 =>
    have hpred := List.find?_some hfc
    have hmem := List.mem_of_find?_eq_some hfc
    have hk : flightKey c1 = flightKey c := by
      unfold keyMatches at hpred
      simp only [Bool.and_eq_true, decide_eq_true_eq] at hpred
      unfold flightKey
      rw [hpred.1, hpred.2]
    have hcc : c1 = c := hkeys c1 hmem c hc hk
    show some c1 = some c
    rw [hcc]

theorem timeDiffers_self (c : FlightRec) : timeDiffers c c = false := by
  simp [timeDiffers]

theorem timeChangedItems_self_nil (current extra : List FlightRec)
    (hkeys : ∀ c1 ∈ current, ∀ c2 ∈ current, flightKey c1 = flightKey c2 → c1 = c2) :
    timeChangedItems (current ++ extra) current = [] := by
  unfold timeChangedItems
  rw [List.filterMap_eq_nil_iff]
  intro c hc
  rw [firstPrevMatch_self current extra c hc hkeys]
  dsimp only
  rw [timeDiffers_self]
  rfl

theorem timeChangedNames_self_nil (current extra : List FlightRec)
    (hkeys : ∀ c1 ∈ current, ∀ c2 ∈ current, flightKey c1 = flightKey c2 → c1 = c2) :
    timeChangedNames (current ++ extra) current = [] := by
  unfold timeChangedNames
  have hf : current.filterMap (fun c =>
      match firstPrevMatch (current ++ extra) c with
      | some p => if timeDiffers p c = true then some (nameOf c) else Option.none
      | Option.none => Option.none) = [] := by
    rw [List.filterMap_eq_nil_iff]
    intro c hc
    rw [firstPrevMatch_self current extra c hc hkeys]
    dsimp only
    rw [timeDiffers_self]
    rfl
  rw [hf]
  rfl

theorem cleanValue_eq_normalize_iff (v : Val) :
    cleanValue v = normalize_value v ↔ (v ≠ Val.str "" ∧ v ≠ Val.str "NaN") := by
  cases v with
  | none => simp [cleanValue, normalize_value]
  | nanFloat => simp [cleanValue, normalize_value]
  | float n => simp [cleanValue, normalize_value]
  | str s =>
    by_cases h : s = "" ∨ s = "NaN"
    · have hnot : ¬ (s ≠ "" ∧ s ≠ "NaN") := by
        rcases h with h | h <;> simp [h]
      simp [cleanValue, normalize_value, h, hnot]
    · push_neg at h
      simp [cleanValue, normalize_value, h]

end ICN

namespace ICN

/-- C1: when the previous snapshot is absent (no cache), `compare_data`
returns `has_changes = true`, the first-run summary, and `changed_records`
equal to the entire current snapshot; stated, per the spec's testable
property, for non-empty `current` (the code in fact does this for every
`current`). -/
theorem c1_first_run (current : List FlightRec) (_h : current ≠ []) :
    compare_data Option.none current
      = ⟨true, "初回実行のため全データを通知", current⟩ := rfl

theorem c1_first_run_witness :
    [sample "KE123" "20251101" (Val.str "1000") Val.none] ≠ ([] : List FlightRec) ∧
    compare_data Option.none [sample "KE123" "20251101" (Val.str "1000") Val.none]
      = ⟨true, "初回実行のため全データを通知",
          [sample "KE123" "20251101" (Val.str "1000") Val.none]⟩ :=
  ⟨by decide, c1_first_run _ (by decide)⟩

/-- C9: `normalize_value` is idempotent, maps the four sentinel shapes
(`None`, empty string, the literal string `"NaN"`, float NaN) to `None`,
and returns every other value unchanged. -/
theorem c9_normalize_idempotent (v : Val) :
    normalize_value (normalize_value v) = normalize_value v ∧
    normalize_value v = (if nanLike v = true then Val.none else v) := by
  cases v with
  | none => simp [normalize_value, nanLike]
  | nanFloat => simp [normalize_value, nanLike]
  | float n => simp [normalize_value, nanLike]
  | str s =>
    by_cases h : s = "" ∨ s = "NaN"
    · simp [normalize_value, nanLike, h]
    · simp [normalize_value, nanLike, h]

/-- C7 counterexample: the snapshot actually written by the cache save is
NOT the field-wise `normalize_value` image the spec describes — an empty
string survives the save unchanged instead of becoming absent. -/
theorem c7_save_counterexample :
    save_current_data [[("出発時間（実際）", Val.str "")]]
      = [[("出発時間（実際）", Val.str "")]] ∧
    specSaveNormalized [[("出発時間（実際）", Val.str "")]]
      = [[("出発時間（実際）", Val.none)]] ∧
    save_current_data [[("出発時間（実際）", Val.str "")]]
      ≠ specSaveNormalized [[("出発時間（実際）", Val.str "")]] := by
  exact ⟨rfl, rfl, by decide⟩

/-- C7 (amended): the save path replaces only float NaN fields by the
canonical absent value; its per-field conversion agrees with the Value
Normalizer exactly on fields that are not the empty string and not the
literal string `"NaN"`, and on snapshots free of those two sentinels the
saved content is the fully normalized snapshot. -/
theorem c7_save_cleans_only_float_nan :
    (∀ v, cleanValue v = normalize_value v ↔ (v ≠ Val.str "" ∧ v ≠ Val.str "NaN")) ∧
    (∀ data : List FlightRec,
      (∀ item ∈ data, ∀ p ∈ item, p.2 ≠ Val.str "" ∧ p.2 ≠ Val.str "NaN") →
      save_current_data data = specSaveNormalized data) := by
  refine ⟨cleanValue_eq_normalize_iff, ?_⟩
  intro data hd
  unfold save_current_data specSaveNormalized
  apply map_congr_mem
  intro item hitem
  apply map_congr_mem
  intro p hp
  rw [(cleanValue_eq_normalize_iff p.2).mpr (hd item hitem p hp)]

theorem c7_save_cleans_only_float_nan_witness :
    save_current_data [[("便名", Val.str "KE123"), ("出発時間（実際）", Val.nanFloat)]]
      = specSaveNormalized [[("便名", Val.str "KE123"), ("出発時間（実際）", Val.nanFloat)]] :=
  c7_save_cleans_only_float_nan.2 _ (by decide)

/-- C2 counterexample: with a duplicate `(flight_id, retrieval_date)` key
in the current snapshot, the first current record bearing a
never-before-seen flight id is NOT included in `changed_records`; the code
emits the last record for the key (here twice), so the claim's
"all current records whose flight_id is never-before-seen are included"
fails. -/
theorem c2_counterexample :
    (∀ p ∈ [sample "KE123" "20251101" (Val.str "0900") Val.none],
        nameOf p ≠ nameOf (sample "OZ456" "20251101" (Val.str "1000") Val.none)) ∧
    sample "OZ456" "20251101" (Val.str "1000") Val.none
      ∈ [sample "OZ456" "20251101" (Val.str "1000") Val.none,
         sample "OZ456" "20251101" (Val.str "1100") Val.none] ∧
    (compare_data (some [sample "KE123" "20251101" (Val.str "0900") Val.none])
        [sample "OZ456" "20251101" (Val.str "1000") Val.none,
         sample "OZ456" "20251101" (Val.str "1100") Val.none]).changed
      = [setKey (sample "OZ456" "20251101" (Val.str "1100") Val.none) "変更種別" (Val.str "新規"),
         setKey (sample "OZ456" "20251101" (Val.str "1100") Val.none) "変更種別" (Val.str "新規")] ∧
    ¬ setKey (sample "OZ456" "20251101" (Val.str "1000") Val.none) "変更種別" (Val.str "新規")
        ∈ (compare_data (some [sample "KE123" "20251101" (Val.str "0900") Val.none])
            [sample "OZ456" "20251101" (Val.str "1000") Val.none,
             sample "OZ456" "20251101" (Val.str "1100") Val.none]).changed := by
  exact ⟨by decide, by decide, by decide, by decide⟩

/-- C2 (amended): a record is tagged `new` only if its flight id occurs
nowhere in the previous snapshot (so a known id appearing with an
additional date is never tagged new), and — provided the record's
`(flight_id, retrieval_date)` key does not repeat in the current
snapshot — every current record with a never-before-seen flight id is
included in `changed_records` tagged `new`; when the key repeats, only
the last record bearing it is emitted. -/
theorem c2_new_flight_rule :
    (∀ prev current r, r ∈ (compare_data (some prev) current).changed →
        pyGet r "変更種別" = Val.str "新規" →
        ∀ p ∈ prev, nameOf p ≠ nameOf r) ∧
    (∀ prev current c, c ∈ current →
        (∀ c' ∈ current, flightKey c' = flightKey c → c' = c) →
        (∀ p ∈ prev, nameOf p ≠ nameOf c) →
        setKey c "変更種別" (Val.str "新規")
          ∈ (compare_data (some prev) current).changed) := by
  constructor
  · intro prev current r hr htag p hp
    rcases changed_cases prev current r hr with hn | ht
    · obtain ⟨item, hmem, hicn, hre⟩ := newItems_elim prev current r hn
      have hni : nameOf r = nameOf item := by rw [hre]; exact nameOf_newTag item
      rw [hni]
      have hall := List.all_eq_true.mp hicn p hp
      exact of_decide_eq_true hall
    · obtain ⟨c, p', hc, hm, hd, hre⟩ := timeChangedItems_elim prev current r ht
      exfalso
      rw [hre, pyGet_tcAnnotate_tag] at htag
      exact absurd htag (by decide)
  · intro prev current c hc huniq hnew
    have hlast : aget? (buildDict current) (flightKey c) = some c := by
      rw [buildDict_eq_lastMatch]
      exact lastMatch_self current c hc huniq
    obtain ⟨_, hch⟩ := compare_changed_of_ne prev current
      (Or.inl (newNames_ne_intro prev current c hc hnew))
    rw [hch]
    exact List.mem_append_left _ (mem_newItems_intro prev current c hc hnew hlast)

theorem c2_new_flight_rule_witness :
    setKey (sample "OZ456" "20251101" (Val.str "1000") Val.none) "変更種別" (Val.str "新規")
      ∈ (compare_data (some [sample "KE123" "20251101" (Val.str "0900") Val.none])
          [sample "OZ456" "20251101" (Val.str "1000") Val.none]).changed :=
  c2_new_flight_rule.2 _ _ _ (by decide) (by decide) (by decide)

end ICN

namespace ICN

/-- C3: for a `(flight_id, retrieval_date)` key occurring (uniquely) in
the previous snapshot and borne by a current record, if the normalized
scheduled or actual time differs between the two runs then
`changed_records` contains that current record tagged `時間変更`
(time_change) with the prior scheduled/actual values attached (an absent
prior value is recorded as the string `未定`); an actual time going from
absent to a concrete value satisfies the difference hypothesis.  The
"not tagged new" proviso of the claim is automatic: a key present in
`previous` means the flight id is not completely new. -/
theorem c3_time_change (prev current : List FlightRec) (p c : FlightRec)
    (hp : p ∈ prev)
    (huniq : ∀ q ∈ prev, flightKey q = flightKey c → q = p)
    (hc : c ∈ current)
    (hkey : flightKey p = flightKey c)
    (hdiff : schedOf p ≠ schedOf c ∨ actualOf p ≠ actualOf c) :
    tcAnnotate c p ∈ (compare_data (some prev) current).changed := by
  have h1 : nameOf p = nameOf c := congrArg Prod.fst hkey
  have h2 : dateOf p = dateOf c := congrArg Prod.snd hkey
  have hpm : keyMatches c p = true := by
    unfold keyMatches
    rw [h1, h2]
    simp
  have hfm : firstPrevMatch prev c = some p := by
    unfold firstPrevMatch
    refine find?_eq_some_unique _ prev p hp hpm ?_
    intro b hb hpb
    apply huniq b hb
    unfold keyMatches at hpb
    simp only [Bool.and_eq_true, decide_eq_true_eq] at hpb
    unfold flightKey
    rw [hpb.1, hpb.2]
  have hd : timeDiffers p c = true := by
    unfold timeDiffers
    rcases hdiff with h | h <;> simp [h]
  exact tc_mem_changed prev current c p hc hfm hd

theorem c3_time_change_witness :
    tcAnnotate (sample "KE123" "20251101" (Val.str "1000") (Val.str "1005"))
        (sample "KE123" "20251101" (Val.str "1000") Val.none)
      ∈ (compare_data (some [sample "KE123" "20251101" (Val.str "1000") Val.none])
          [sample "KE123" "20251101" (Val.str "1000") (Val.str "1005")]).changed :=
  c3_time_change _ _ _ _ (by decide) (by decide) (by decide) (by decide)
    (Or.inr (by decide))

/-- C4: deletions are suppressed — no annotated record ever carries the
`削除` (deleted) kind, a flight id absent from the current snapshot
contributes no record to `changed_records`, and when the current snapshot
(with pairwise distinct comparison keys) is exactly the previous one minus
some removed records, the classifier reports no changes at all. -/
theorem c4_deletions_not_reported :
    (∀ prev current : List FlightRec, ∀ r ∈ (compare_data (some prev) current).changed,
        pyGet r "変更種別" ≠ Val.str "削除") ∧
    (∀ prev current : List FlightRec, ∀ fid : Val,
        (∀ c ∈ current, nameOf c ≠ fid) →
        ∀ r ∈ (compare_data (some prev) current).changed, nameOf r ≠ fid) ∧
    (∀ current extra : List FlightRec,
        (∀ c1 ∈ current, ∀ c2 ∈ current, flightKey c1 = flightKey c2 → c1 = c2) →
        compare_data (some (current ++ extra)) current = ⟨false, "変更なし", []⟩) := by
  refine ⟨?_, ?_, ?_⟩
  · intro prev current r hr
    rcases changed_cases prev current r hr with hn | ht
    · obtain ⟨item, _, _, hre⟩ := newItems_elim prev current r hn
      rw [hre, pyGet_newTag]
      decide
    · obtain ⟨c, p', _, _, _, hre⟩ := timeChangedItems_elim prev current r ht
      rw [hre, pyGet_tcAnnotate_tag]
      decide
  · intro prev current fid hno r hr
    rcases changed_cases prev current r hr with hn | ht
    · obtain ⟨item, hmem, _, hre⟩ := newItems_elim prev current r hn
      rw [hre, nameOf_newTag]
      exact hno item hmem
    · obtain ⟨c, p', hc, _, _, hre⟩ := timeChangedItems_elim prev current r ht
      rw [hre, nameOf_tcAnnotate]
      exact hno c hc
  · intro current extra hkeys
    have hadd : addedTuples (current ++ extra) current = [] :=
      addedTuples_nil _ _
        (fun c hc => List.mem_map_of_mem _ (List.mem_append_left extra hc))
    have h1 : newNames (current ++ extra) current = [] := by
      unfold newNames
      rw [hadd]
      rfl
    have h2 : timeChangedNames (current ++ extra) current = [] :=
      timeChangedNames_self_nil current extra hkeys
    exact compare_none_of_empty _ _ h1 h2

theorem c4_deletions_not_reported_witness :
    pyGet (setKey (sample "OZ456" "20251101" (Val.str "1000") Val.none)
        "変更種別" (Val.str "新規")) "変更種別" ≠ Val.str "削除" ∧
    nameOf (setKey (sample "OZ456" "20251101" (Val.str "1000") Val.none)
        "変更種別" (Val.str "新規")) ≠ Val.str "KE999" ∧
    compare_data
        (some ([sample "KE123" "20251101" (Val.str "1000") Val.none]
          ++ [sample "KE999" "20251101" (Val.str "0800") Val.none]))
        [sample "KE123" "20251101" (Val.str "1000") Val.none]
      = ⟨false, "変更なし", []⟩ := by
  refine ⟨?_, ?_, ?_⟩
  · exact c4_deletions_not_reported.1
      [sample "KE123" "20251101" (Val.str "0900") Val.none]
      [sample "OZ456" "20251101" (Val.str "1000") Val.none] _ (by decide)
  · exact c4_deletions_not_reported.2.1
      [sample "KE123" "20251101" (Val.str "0900") Val.none]
      [sample "OZ456" "20251101" (Val.str "1000") Val.none]
      (Val.str "KE999") (by decide) _ (by decide)
  · exact c4_deletions_not_reported.2.2
      [sample "KE123" "20251101" (Val.str "1000") Val.none]
      [sample "KE999" "20251101" (Val.str "0800") Val.none] (by decide)

/-- C8 counterexample: duplicate keys are NOT resolved last-wins by the
time-change scan.  With two previous records for one key (scheduled 1000
then 1100) and a current record equal in time to the LAST of them, the
claim predicts no change; the code compares against the FIRST previous
record and emits a `時間変更` record carrying prior scheduled 1000.
Moreover, with a duplicated current key, two changed records are produced
for one key, against the claim's "at most one changed record per key". -/
theorem c8_counterexample :
    lastMatch
        [sample "KE123" "d1" (Val.str "1000") Val.none,
         sample "KE123" "d1" (Val.str "1100") Val.none]
        (flightKey (sample "KE123" "d1" (Val.str "1100") Val.none))
      = some (sample "KE123" "d1" (Val.str "1100") Val.none) ∧
    timeDiffers (sample "KE123" "d1" (Val.str "1100") Val.none)
        (sample "KE123" "d1" (Val.str "1100") Val.none) = false ∧
    (compare_data
        (some [sample "KE123" "d1" (Val.str "1000") Val.none,
               sample "KE123" "d1" (Val.str "1100") Val.none])
        [sample "KE123" "d1" (Val.str "1100") Val.none]).changed
      = [tcAnnotate (sample "KE123" "d1" (Val.str "1100") Val.none)
           (sample "KE123" "d1" (Val.str "1000") Val.none)] ∧
    flightKey (sample "KE123" "d1" (Val.str "1000") Val.none)
      = flightKey (sample "KE123" "d1" (Val.str "1100") Val.none) ∧
    (compare_data
        (some [sample "KE123" "d1" (Val.str "0900") Val.none])
        [sample "KE123" "d1" (Val.str "1000") Val.none,
         sample "KE123" "d1" (Val.str "1100") Val.none]).changed.length = 2 := by
  exact ⟨by decide, by decide, by decide, by decide, by decide⟩

/-- C8 (amended): last-wins holds for the lookup maps — `curr_dict` built
by the classifier resolves a repeated key to the LAST record bearing it,
and the record emitted for a new flight is that last record — but the
time-change scan compares each current occurrence against the FIRST
previous record with its key and emits one record per qualifying current
occurrence, so several changed records may share a key. -/
theorem c8_lookup_resolution :
    (∀ (l : List FlightRec) (k : Val × Val), aget? (buildDict l) k = lastMatch l k) ∧
    (∀ prev current : List FlightRec, newItems prev current
        = (addedTuples prev current).filterMap (fun t =>
            if is_completely_new prev t.1 then
              (lastMatch current (t.1, t.2.1)).map
                (fun item => setKey item "変更種別" (Val.str "新規"))
            else Option.none)) ∧
    (∀ prev current c p, c ∈ current → firstPrevMatch prev c = some p →
        timeDiffers p c = true →
        tcAnnotate c p ∈ (compare_data (some prev) current).changed) := by
  refine ⟨buildDict_eq_lastMatch, ?_, tc_mem_changed⟩
  intro prev current
  unfold newItems
  have hfg : (fun t : Val × Val × Val × Val =>
      if is_completely_new prev t.1 then
        match aget? (buildDict current) (t.1, t.2.1) with
        | some item => some (setKey item "変更種別" (Val.str "新規"))
        | Option.none => Option.none
      else Option.none)
    = (fun t => if is_completely_new prev t.1 then
        (lastMatch current (t.1, t.2.1)).map
          (fun item => setKey item "変更種別" (Val.str "新規"))
        else Option.none) := by
    funext t
    by_cases hn : is_completely_new prev t.1 = true
    · rw [if_pos hn, if_pos hn, buildDict_eq_lastMatch]
      cases lastMatch current (t.1, t.2.1) <;> rfl
    · rw [if_neg hn, if_neg hn]
  rw [hfg]

theorem c8_lookup_resolution_witness :
    tcAnnotate (sample "KE123" "d1" (Val.str "1100") Val.none)
        (sample "KE123" "d1" (Val.str "1000") Val.none)
      ∈ (compare_data
          (some [sample "KE123" "d1" (Val.str "1000") Val.none,
                 sample "KE123" "d1" (Val.str "1100") Val.none])
          [sample "KE123" "d1" (Val.str "1100") Val.none]).changed :=
  c8_lookup_resolution.2.2 _ _ _ _ (by decide) (by decide) (by decide)

end ICN

namespace ICN

/-- C5 counterexample: a run whose only direction with data has changes
and whose notification fails exits 1 WITHOUT rewriting that direction's
cache — against the claim that every direction with data gets its cache
rewritten regardless of notification outcome. -/
theorem c5_counterexample :
    hasData (some [sample "OZ1" "d" (Val.str "1000") Val.none]) = true ∧
    (main ⟨true, some [sample "OZ1" "d" (Val.str "1000") Val.none], Option.none,
        some [], Option.none, false, false⟩).depCacheWrite = Option.none ∧
    (main ⟨true, some [sample "OZ1" "d" (Val.str "1000") Val.none], Option.none,
        some [], Option.none, false, false⟩).exitCode = 1 := by
  exact ⟨by decide, by decide, by decide⟩

/-- C5 (amended): in a configured run with data in at least one direction,
each direction with data has its cache rewritten with that direction's
current snapshot when no changes were detected overall OR at least one
notification succeeded; when changes were detected and every notification
attempt failed, NO cache file is written. -/
theorem c5_cache_update (e : Env) (hw : e.webhook = true)
    (hd : hasDep e = true ∨ hasArr e = true) :
    ((overallChanges e = false ∨ anySuccess e = true) →
      ((hasDep e = true → (main e).depCacheWrite
          = some (save_current_data (e.df_departure.getD []))) ∧
       (hasArr e = true → (main e).arrCacheWrite
          = some (save_current_data (e.df_arrival.getD []))))) ∧
    (overallChanges e = true ∧ anySuccess e = false →
      (main e).depCacheWrite = Option.none ∧ (main e).arrCacheWrite = Option.none) := by
  have hnw : ¬ (e.webhook = false) := by simp [hw]
  have hnd : ¬ (hasDep e = false ∧ hasArr e = false) := by
    rcases hd with h | h <;> simp [h]
  constructor
  · rintro (ho | hs)
    · unfold main
      rw [if_neg hnw, if_neg hnd, if_neg (by simp [ho])]
      constructor <;> intro h <;> simp [h]
    · unfold main
      by_cases ho : overallChanges e = true
      · rw [if_neg hnw, if_neg hnd, if_pos ho, if_pos hs]
        constructor <;> intro h <;> simp [h]
      · rw [if_neg hnw, if_neg hnd, if_neg ho]
        constructor <;> intro h <;> simp [h]
  · rintro ⟨ho, hs⟩
    unfold main
    rw [if_neg hnw, if_neg hnd, if_pos ho, if_neg (by simp [hs])]
    exact ⟨rfl, rfl⟩

theorem c5_cache_update_witness :
    (main ⟨true, some [sample "KE123" "20251101" (Val.str "1000") Val.none], Option.none,
        some [sample "KE123" "20251101" (Val.str "1000") Val.none], Option.none,
        false, false⟩).depCacheWrite
      = some (save_current_data [sample "KE123" "20251101" (Val.str "1000") Val.none]) :=
  ((c5_cache_update _ (by decide) (by decide)).1 (by decide)).1 (by decide)

/-- C6: in a configured run, the process exits 1 when acquisition yielded
no data for both directions; otherwise it exits 0 exactly when at least
one notification attempt succeeded or no changes were detected in any
direction, and exits 1 exactly when changes were detected but every
notification attempt failed.  (The spec additionally assigns exit 1 to a
missing webhook configuration, which is why the run is assumed
configured here.) -/
theorem c6_exit_status (e : Env) (hw : e.webhook = true) :
    ((hasDep e = false ∧ hasArr e = false) → (main e).exitCode = 1) ∧
    ((hasDep e = true ∨ hasArr e = true) →
      (((main e).exitCode = 0) ↔ (anySuccess e = true ∨ overallChanges e = false)) ∧
      (((main e).exitCode = 1) ↔ (overallChanges e = true ∧ anySuccess e = false))) := by
  have hnw : ¬ (e.webhook = false) := by simp [hw]
  constructor
  · intro hnd
    unfold main
    rw [if_neg hnw, if_pos hnd]
  · intro hd
    have hnd : ¬ (hasDep e = false ∧ hasArr e = false) := by
      rcases hd with h | h <;> simp [h]
    unfold main
    rw [if_neg hnw, if_neg hnd]
    by_cases ho : overallChanges e = true
    · rw [if_pos ho]
      by_cases hs : anySuccess e = true
      · rw [if_pos hs]
        constructor <;> simp [ho, hs]
      · rw [if_neg hs]
        have hs' : anySuccess e = false := Bool.eq_false_iff.mpr hs
        constructor <;> simp [ho, hs']
    · rw [if_neg ho]
      have ho' : overallChanges e = false := Bool.eq_false_iff.mpr ho
      constructor <;> simp [ho']

theorem c6_exit_status_witness :
    (main ⟨true, some [sample "OZ1" "d" (Val.str "1000") Val.none], Option.none,
        some [], Option.none, false, false⟩).exitCode = 1 :=
  ((c6_exit_status _ (by decide)).2 (by decide)).2.mpr (by decide)

/-- C10: in a configured run where changes were detected and at least one
direction's notification succeeded, the run exits 0 and EVERY direction
with data has its cache overwritten with that direction's current
snapshot — including a direction whose own notification failed or was
never attempted, whose detected-but-undelivered change records are thus
absorbed into the cache. -/
theorem c10_cache_overwrite (e : Env) (hw : e.webhook = true)
    (ho : overallChanges e = true) (hs : anySuccess e = true) :
    (main e).exitCode = 0 ∧
    (hasDep e = true → (main e).depCacheWrite
        = some (save_current_data (e.df_departure.getD []))) ∧
    (hasArr e = true → (main e).arrCacheWrite
        = some (save_current_data (e.df_arrival.getD []))) := by
  have hnw : ¬ (e.webhook = false) := by simp [hw]
  have hnd : ¬ (hasDep e = false ∧ hasArr e = false) := by
    rintro ⟨h1, h2⟩
    simp [overallChanges, depReport, arrReport, h1, h2] at ho
  unfold main
  rw [if_neg hnw, if_neg hnd, if_pos ho, if_pos hs]
  refine ⟨rfl, ?_, ?_⟩ <;> intro h <;> simp [h]

theorem c10_cache_overwrite_witness :
    (main ⟨true, some [sample "OZ1" "d" (Val.str "1000") Val.none],
        some [sample "OZ2" "d" (Val.str "0900") Val.none],
        some [], some [], true, false⟩).arrCacheWrite
      = some (save_current_data [sample "OZ2" "d" (Val.str "0900") Val.none]) ∧
    (main ⟨true, some [sample "OZ1" "d" (Val.str "1000") Val.none],
        some [sample "OZ2" "d" (Val.str "0900") Val.none],
        some [], some [], true, false⟩).exitCode = 0 :=
  ⟨(c10_cache_overwrite _ (by decide) (by decide) (by decide)).2.2 (by decide),
   (c10_cache_overwrite _ (by decide) (by decide) (by decide)).1⟩

end ICN
